import Mathlib

/-!
# Verification of the XShaderCompiler core against its specification

This development gives a shallow embedding of the parts of the
XShaderCompiler sources that the specification's claims talk about:

* `src/Compiler/AST/AST.cpp` — the typed AST with its memoized type
  denoters (`TypedAST::GetTypeDenoter`, `ResetBufferedTypeDenoter`,
  `LiteralExpr::ConvertDataType`), `StructDecl::Fetch`,
  `FunctionDecl::NumMinArgs`/`NumMaxArgs`, the `DeriveTypeDenoter`
  implementations of the expression nodes, and `VarIdent::PopFront`;
* `inc/Xsc/Targets.h` — the `OutputShaderVersion` enumeration;
* `tool/main.cpp` — the command-line argument loop (`BoolArg`,
  `NextArg`, `Translate`, and `main`'s flag dispatch).

Stateful C++ methods become explicit state-passing functions; fallible
methods (those that call `RuntimeErr`) return `Except String`.
-/

namespace Xsc

/- ===================== Enumerations =====================

`DataType` and `UnaryOp` live in `ASTEnums.h`, which is not among the
provided sources; they are modelled from the spec (§3.2 lists the
primitive scalar types `{void, bool, int, uint, half, float, double}`;
the string type additionally appears in `LiteralExpr::GetStringValue`). -/

/-- Modelled from the spec: the primitive data types of §3.2
(`void, bool, int, uint, half, float, double`), plus `String` and
`Undefined` which `AST.cpp` uses (`LiteralExpr::GetStringValue`,
default enumerator). The repository's `ASTEnums.h` is not among the
provided sources. -/
inductive DataType where
  | Undefined
  | Void
  | Bool
  | Int
  | UInt
  | Half
  | Float
  | Double
  | String
deriving DecidableEq, Repr

/-- Modelled from the spec: the unary operators of HLSL referred to by
§4.2 ("`UnaryExpr`/`PostUnaryExpr` → if logical operator, `Base(bool)`;
else operand type"). The repository's `ASTEnums.h` is not among the
provided sources. -/
inductive UnaryOp where
  | LogicalNot
  | BitwiseNot
  | Negate
  | Inc
  | Dec
deriving DecidableEq, Repr

/-- Modelled from the spec: the only logical unary operator is
logical-not (`!`); the remaining unary operators (`~`, `-`, `++`, `--`)
are arithmetic. -/
def IsLogicalOp : UnaryOp → Bool
  | .LogicalNot => true
  | _ => false

/- ===================== Type denoters and expressions =====================

Shallow embedding of the expression variants of `AST.h`/`AST.cpp` that
the claims need, together with the type denoters they produce.  An
array type denoter carries its list of dimension expressions, where
`none` models a null `ExprPtr` (an unsized dimension), exactly as in
`ArrayTypeDenoter`. -/

mutual

inductive TypeDenoter where
  | base (dataType : DataType)
  | array (elementType : TypeDenoter) (arrayDims : List (Option Expr))

inductive Expr where
  | null
  | literal (dataType : DataType) (value : String)
  | unary (op : UnaryOp) (expr : Expr)
  | postUnary (expr : Expr) (op : UnaryOp)
  | initializerList (exprs : List Expr)

end

/-- Embedding of the `DeriveTypeDenoter` implementations: the
derivation of a type denoter for each embedded expression variant,
following `AST.cpp`.  `RuntimeErr` becomes `Except.error`. -/
def Expr.deriveTypeDenoter : Expr → Except String TypeDenoter
  | .null => .ok (.base .Int)
  | .literal dataType _ => .ok (.base dataType)
  | .unary op expr =>
      match expr.deriveTypeDenoter with
      | .error msg => .error msg
      | .ok typeDen => if IsLogicalOp op then .ok (.base .Bool) else .ok typeDen
  | .postUnary expr _ => expr.deriveTypeDenoter
  | .initializerList [] =>
      .error "can not derive type of initializer list with no elements"
  | .initializerList (e :: _) =>
      match e.deriveTypeDenoter with
      | .error msg => .error msg
      | .ok typeDen => .ok (.array typeDen [none])

mutual

/-- The per-element contribution inside `InitializerExpr::NumElements`:
a nested initializer list counts flattened, anything else counts one. -/
def Expr.numElementsContribution : Expr → Nat
  | .initializerList exprs => initializerNumElements exprs
  | _ => 1

/-- Embedding of `InitializerExpr::NumElements` on the expression list of an
initializer expression. -/
def initializerNumElements : List Expr → Nat
  | [] => 0
  | e :: es => e.numElementsContribution + initializerNumElements es

end

/- ===================== TypedAST memo cache =====================

`TypedAST::GetTypeDenoter` is shared by every typed node; only the
virtual `DeriveTypeDenoter` differs per node, so the memo logic is
embedded generically in the derived denoter. -/

/-- The state of `TypedAST`: the write-once buffered type denoter. -/
structure TypedAST where
  bufferedTypeDenoter : Option TypeDenoter

/-- Embedding of `TypedAST::GetTypeDenoter`: derive (the node-specific
`DeriveTypeDenoter` result is the `derive` argument) only when the
buffer is empty, store it, and return the buffered denoter. -/
def TypedAST.GetTypeDenoter (derive : TypeDenoter) (s : TypedAST) :
    TypeDenoter × TypedAST :=
  match s.bufferedTypeDenoter with
  | some typeDen => (typeDen, s)
  | none => (derive, { bufferedTypeDenoter := some derive })

/-- Number of calls to `DeriveTypeDenoter` a `GetTypeDenoter` call
performs from state `s`: one exactly when the buffer is empty. -/
def TypedAST.deriveCallCount (s : TypedAST) : Nat :=
  match s.bufferedTypeDenoter with
  | some _ => 0
  | none => 1

/-- Embedding of `TypedAST::ResetBufferedTypeDenoter`. -/
def TypedAST.ResetBufferedTypeDenoter (_ : TypedAST) : TypedAST :=
  { bufferedTypeDenoter := none }

/- ===================== LiteralExpr =====================

`LiteralExpr` carries a data type, a value string and (via `TypedAST`)
the buffered type denoter. -/

structure LiteralExpr where
  dataType : DataType
  value : String
  bufferedTypeDenoter : Option TypeDenoter

/-- Embedding of `LiteralExpr::DeriveTypeDenoter`. -/
def LiteralExpr.DeriveTypeDenoter (e : LiteralExpr) : TypeDenoter :=
  .base e.dataType

/-- The shared `TypedAST::GetTypeDenoter` specialized to a literal expression. -/
def LiteralExpr.GetTypeDenoter (e : LiteralExpr) :
    TypeDenoter × LiteralExpr :=
  match e.bufferedTypeDenoter with
  | some typeDen => (typeDen, e)
  | none =>
      (e.DeriveTypeDenoter, { e with bufferedTypeDenoter := some e.DeriveTypeDenoter })

/-- The shared `TypedAST::ResetBufferedTypeDenoter` on a literal expression. -/
def LiteralExpr.ResetBufferedTypeDenoter (e : LiteralExpr) : LiteralExpr :=
  { e with bufferedTypeDenoter := none }

/-- Embedding of `LiteralExpr::ConvertDataType`.  The value-string conversions go
through the repository's `Variant` class (`Variant::ParseFrom` followed
by `ToBool`/`ToInt`/`ToReal` and `ToString`), which is not among the
provided sources; the three composite string conversions are therefore
taken as parameters (`toBoolStr`, `toIntStr`, `toRealStr`), so every
theorem below holds for every behavior of `Variant`.  The structure of
the method — the `dataType != type` guard, the switch on the target
type (with `UInt` appending `"u"` and the default branch leaving the
value untouched), the assignment of the new data type and the final
`ResetBufferedTypeDenoter` — follows `AST.cpp` lines 640–679. -/
def LiteralExpr.ConvertDataType
    (toBoolStr toIntStr toRealStr : String → String)
    (e : LiteralExpr) (type : DataType) : LiteralExpr :=
  if e.dataType ≠ type then
    let newValue :=
      match type with
      | .Bool => toBoolStr e.value
      | .Int => toIntStr e.value
      | .UInt => toIntStr e.value ++ "u"
      | .Half => toRealStr e.value
      | .Float => toRealStr e.value
      | .Double => toRealStr e.value
      | _ => e.value
    { dataType := type, value := newValue, bufferedTypeDenoter := none }
  else
    e

/- ===================== Declarations: VarDecl / VarDeclStmnt =====================

Only the fields the embedded methods read are carried: `VarDecl.ident`
and `VarDecl.initializer` (for `VarDeclStmnt::Fetch` and
`FunctionDecl::NumMinArgs`), and `VarDeclStmnt.varDecls`. -/

structure VarDecl where
  ident : String
  initializer : Option Expr

structure VarDeclStmnt where
  varDecls : List VarDecl

/-- Embedding of `VarDeclStmnt::Fetch`: return the first variable declaration of the
statement whose identifier equals `ident`, null (`none`) otherwise. -/
def VarDeclStmnt.Fetch (s : VarDeclStmnt) (ident : String) : Option VarDecl :=
  s.varDecls.find? (fun var => var.ident == ident)

/- ===================== StructDecl ===================== -/

/-- The `StructDecl` node: identifier, optional base structure reference, and
member variable-declaration statements. -/
inductive StructDecl where
  | mk (ident : String) (baseStructRef : Option StructDecl)
       (members : List VarDeclStmnt)

def StructDecl.ident : StructDecl → String
  | .mk i _ _ => i

def StructDecl.baseStructRef : StructDecl → Option StructDecl
  | .mk _ b _ => b

def StructDecl.members : StructDecl → List VarDeclStmnt
  | .mk _ _ m => m

/-- The member loop inside `StructDecl::Fetch`: try
`VarDeclStmnt::Fetch` on each member statement in order. -/
def fetchFromMembers (members : List VarDeclStmnt) (ident : String) :
    Option VarDecl :=
  match members with
  | [] => none
  | varDeclStmnt :: rest =>
      match varDeclStmnt.Fetch ident with
      | some symbol => some symbol
      | none => fetchFromMembers rest ident

/-- Embedding of `StructDecl::Fetch`: fetch the symbol from the base struct first,
then from the own member statements. -/
def StructDecl.Fetch : StructDecl → String → Option VarDecl
  | .mk _ baseStructRef members, ident =>
      match baseStructRef with
      | some base =>
          match base.Fetch ident with
          | some varDecl => some varDecl
          | none => fetchFromMembers members ident
      | none => fetchFromMembers members ident

/-- The flattened member list of a struct in search order: all
variable declarations of the base chain first (recursively), then the
own members' declarations in declaration order.  This is the reading
of the claim "searches the base struct chain first, then `s`'s own
member statements in declaration order". -/
def StructDecl.allVars : StructDecl → List VarDecl
  | .mk _ baseStructRef members =>
      (match baseStructRef with
       | some base => base.allVars
       | none => []) ++ members.flatMap (fun m => m.varDecls)

/- ===================== FunctionDecl ===================== -/

structure FunctionDecl where
  parameters : List VarDeclStmnt

/-- The loop body of `FunctionDecl::NumMinArgs`: count parameters until
the first one whose (non-empty) variable-declaration list has a front
declaration with an initializer. -/
def numMinArgsLoop : List VarDeclStmnt → Nat
  | [] => 0
  | param :: rest =>
      match param.varDecls with
      | front :: _ =>
          if front.initializer.isSome then 0 else numMinArgsLoop rest + 1
      | [] => numMinArgsLoop rest + 1

/-- Embedding of `FunctionDecl::NumMinArgs`. -/
def FunctionDecl.NumMinArgs (f : FunctionDecl) : Nat :=
  numMinArgsLoop f.parameters

/-- Embedding of `FunctionDecl::NumMaxArgs`. -/
def FunctionDecl.NumMaxArgs (f : FunctionDecl) : Nat :=
  f.parameters.length

/-- The claim's reading of a defaulted parameter: the parameter's first
variable declaration carries an initializer. -/
def paramHasDefault (param : VarDeclStmnt) : Bool :=
  match param.varDecls with
  | front :: _ => front.initializer.isSome
  | [] => false

/- ===================== VarIdent ===================== -/

/-- The `VarIdent` node: a chain of identifier segments.  `arrayIndices` models
the `std::vector<ExprPtr>` of index expressions, `next` the next-link,
and `symbolRef` the non-owning `AST*` back-reference (modelled as an
arena index, per the spec's design notes §9). -/
inductive VarIdent where
  | mk (ident : String) (arrayIndices : List Expr)
       (next : Option VarIdent) (symbolRef : Option Nat)

def VarIdent.ident : VarIdent → String
  | .mk i _ _ _ => i

def VarIdent.arrayIndices : VarIdent → List Expr
  | .mk _ a _ _ => a

def VarIdent.next : VarIdent → Option VarIdent
  | .mk _ _ n _ => n

def VarIdent.symbolRef : VarIdent → Option Nat
  | .mk _ _ _ s => s

/-- Embedding of `VarIdent::PopFront`: when a next segment exists, copy its `ident`,
`arrayIndices`, `next` and `symbolRef` into this node; otherwise do
nothing. -/
def VarIdent.PopFront : VarIdent → VarIdent
  | .mk ident arrayIndices next symbolRef =>
      match next with
      | some nextVarIdent =>
          .mk nextVarIdent.ident nextVarIdent.arrayIndices
              nextVarIdent.next nextVarIdent.symbolRef
      | none => .mk ident arrayIndices none symbolRef

/- ===================== Targets.h: OutputShaderVersion ===================== -/

/-- The `OutputShaderVersion` enumeration from `inc/Xsc/Targets.h`. -/
inductive OutputShaderVersion where
  | GLSL110
  | GLSL120
  | GLSL130
  | GLSL140
  | GLSL150
  | GLSL330
  | GLSL400
  | GLSL410
  | GLSL420
  | GLSL430
  | GLSL440
  | GLSL450
  | GLSL
  | ESSL100
  | ESSL300
  | ESSL310
  | ESSL320
  | ESSL
  | VKSL450
  | VKSL
deriving DecidableEq, Repr

/-- The enumerator values assigned in `inc/Xsc/Targets.h`. -/
def OutputShaderVersion.value : OutputShaderVersion → Nat
  | .GLSL110 => 110
  | .GLSL120 => 120
  | .GLSL130 => 130
  | .GLSL140 => 140
  | .GLSL150 => 150
  | .GLSL330 => 330
  | .GLSL400 => 400
  | .GLSL410 => 410
  | .GLSL420 => 420
  | .GLSL430 => 430
  | .GLSL440 => 440
  | .GLSL450 => 450
  | .GLSL => 0x0000ffff
  | .ESSL100 => 0x00010000 + 100
  | .ESSL300 => 0x00010000 + 300
  | .ESSL310 => 0x00010000 + 310
  | .ESSL320 => 0x00010000 + 320
  | .ESSL => 0x0001ffff
  | .VKSL450 => 0x00020000 + 450
  | .VKSL => 0x0002ffff

/-- The claim's family classification: tag `0x0000` for the GLSL
variants, `0x0001` for the ESSL variants, `0x0002` for the VKSL
variants. -/
def OutputShaderVersion.familyTag : OutputShaderVersion → Nat
  | .GLSL110 | .GLSL120 | .GLSL130 | .GLSL140 | .GLSL150 | .GLSL330
  | .GLSL400 | .GLSL410 | .GLSL420 | .GLSL430 | .GLSL440 | .GLSL450
  | .GLSL => 0x0000
  | .ESSL100 | .ESSL300 | .ESSL310 | .ESSL320 | .ESSL => 0x0001
  | .VKSL450 | .VKSL => 0x0002

/-- The auto-detect enumerators (`GLSL`, `ESSL`, `VKSL`). -/
def OutputShaderVersion.isAutoDetect : OutputShaderVersion → Bool
  | .GLSL | .ESSL | .VKSL => true
  | _ => false

end Xsc

namespace XscTool

/- ===================== tool/main.cpp: the CLI front end =====================

Shallow embedding of the argument loop of `main` (the first of the two
`main.cpp` revisions in `tool/`, the one containing `BoolArg`), with
the flag dispatch split into a pure classification (`classifyArg`,
mirroring the `if`/`else if` chain in source order) and per-kind state
updates.  File/stream I/O inside `Translate` is outside the model; a
`TranslateEvent` records each `Translate` invocation together with the
configuration it ran under. -/

/-- The `PredefinedMacro` record from `tool/main.cpp` (an identifier with an
optional value). -/
structure PredefinedDef where
  ident : String
  value : String

/-- The `Options` fields `tool/main.cpp` writes (declared in the
library header `Xsc.h`, which is not among the provided sources; the
fields are taken from their uses in `main`).  `prefixStr` models the
`prefix` member. -/
structure Options where
  warnings : Bool
  blanks : Bool
  lineMarks : Bool
  dumpAST : Bool
  preprocessOnly : Bool
  keepComments : Bool
  indent : String
  prefixStr : String

/-- The `Config` global of `tool/main.cpp`. -/
structure Config where
  entry : String
  target : String
  shaderIn : String
  shaderOut : String
  output : String
  predefinedDefs : List PredefinedDef
  options : Options

/-- Embedding of `BoolArg` from `tool/main.cpp`, as a function of the remaining
argument list after the flag: defaults to `true`; `"on"`/`"off"` as
the next argument are consumed and yield `true`/`false`; any other
next argument is left unconsumed and the flag yields `true`. -/
def BoolArg : List String → Bool × List String
  | [] => (true, [])
  | arg :: rest =>
      if arg = "on" then (true, rest)
      else if arg = "off" then (false, rest)
      else (true, arg :: rest)

/-- Helper for `ExtractFilename`: the part of the character list before
its last `'.'`, or `none` when there is no `'.'`. -/
def beforeLastDot : List Char → Option (List Char)
  | [] => none
  | c :: rest =>
      match beforeLastDot rest with
      | some pre => some (c :: pre)
      | none => if c = '.' then some [] else none

/-- Embedding of `ExtractFilename` from `tool/main.cpp`: strip the extension after
the last `'.'` (`find_last_of`), or return the filename unchanged when
it has none. -/
def ExtractFilename (filename : String) : String :=
  match beforeLastDot filename.toList with
  | some pre => String.mk pre
  | none => filename

/-- Index of the first `'='` in a character list, if any (models
`std::string::find('=')`). -/
def firstEqIndex : List Char → Option Nat
  | [] => none
  | c :: rest =>
      if c = '=' then some 0
      else (firstEqIndex rest).map (fun n => n + 1)

/-- Embedding of `PredefinedMacroArg` from `tool/main.cpp`: split `-DIDENT=VALUE`
at the first `'='` when one exists with a non-empty value part,
otherwise take everything after `-D` as the identifier. -/
def PredefinedDefArg (arg : String) : PredefinedDef :=
  let cs := arg.toList
  match firstEqIndex cs with
  | some pos =>
      if pos + 1 < cs.length then
        { ident := String.mk ((cs.drop 2).take (pos - 2)),
          value := String.mk (cs.drop (pos + 1)) }
      else
        { ident := String.mk (cs.drop 2), value := "" }
  | none => { ident := String.mk (cs.drop 2), value := "" }

/-- A record of one `Translate` call: the input filename and the
per-file configuration (`entry`, `target`, `output`) it ran under,
after `Translate`'s own adjustments. -/
structure TranslateEvent where
  filename : String
  entry : String
  target : String
  output : String

/-- Embedding of `Translate` from `tool/main.cpp`, up to the external I/O: fill in
the default output filename when `output` is empty, clear a `"<none>"`
prefix, clear `entry` and `target` when either is empty, and invoke
the translation (recorded as a `TranslateEvent`). -/
def Translate (c : Config) (filename : String) : Config × TranslateEvent :=
  let c1 :=
    if c.output = "" then
      { c with output :=
          ExtractFilename filename
            ++ (if c.target ≠ "" then "." ++ c.target else "")
            ++ ".glsl" }
    else c
  let c2 :=
    if c1.options.prefixStr = "<none>" then
      { c1 with options := { c1.options with prefixStr := "" } }
    else c1
  let c3 :=
    if c2.entry = "" ∨ c2.target = "" then
      { c2 with entry := "", target := "" }
    else c2
  (c3, { filename := filename, entry := c3.entry, target := c3.target,
         output := c3.output })

/-- The whole `else` branch of `main`'s argument loop for a positional
(non-flag) argument: call `Translate`, then reset the per-file
configuration fields `output`, `target` and `entry` to empty. -/
def handleFile (c : Config) (filename : String) : Config × TranslateEvent :=
  let r := Translate c filename
  ({ r.1 with output := "", target := "", entry := "" }, r.2)

/-- The state `main` threads through its argument loop. -/
structure MainState where
  config : Config
  showHelp : Bool
  showVersion : Bool
  pauseApp : Bool
  translationCount : Nat
  events : List TranslateEvent

/-- The flags handled without consuming further arguments. -/
inductive SimpleFlag where
  | help
  | version
  | pause
deriving DecidableEq, Repr

/-- The flags read through `BoolArg`. -/
inductive BoolFlag where
  | warn
  | blanks
  | lineMarks
  | dumpAST
  | pponly
  | comments
deriving DecidableEq, Repr

/-- The flags read through `NextArg`. -/
inductive NextFlag where
  | entry
  | target
  | shaderIn
  | shaderOut
  | indent
  | prefixFlag
  | output
deriving DecidableEq, Repr

/-- Classification of one argument by `main`'s `if`/`else if` chain,
in source order. -/
inductive ArgClass where
  | flagSimple (t : SimpleFlag)
  | flagBool (t : BoolFlag)
  | flagNext (t : NextFlag)
  | define
  | file
deriving DecidableEq, Repr

/-- The `if`/`else if` chain of `main`'s argument loop, in source
order; an argument matching no flag (including the `-D` pattern, which
requires more than three characters) is a positional input file. -/
def classifyArg (arg : String) : ArgClass :=
  if arg = "help" ∨ arg = "--help" ∨ arg = "-h" then .flagSimple .help
  else if arg = "--version" ∨ arg = "-v" then .flagSimple .version
  else if arg = "--pause" then .flagSimple .pause
  else if arg = "-warn" then .flagBool .warn
  else if arg = "-blanks" then .flagBool .blanks
  else if arg = "-line-marks" then .flagBool .lineMarks
  else if arg = "-dump-ast" then .flagBool .dumpAST
  else if arg = "-pponly" then .flagBool .pponly
  else if arg = "-comments" then .flagBool .comments
  else if arg = "-entry" then .flagNext .entry
  else if arg = "-target" then .flagNext .target
  else if arg = "-shaderin" then .flagNext .shaderIn
  else if arg = "-shaderout" then .flagNext .shaderOut
  else if arg = "-indent" then .flagNext .indent
  else if arg = "-prefix" then .flagNext .prefixFlag
  else if arg = "-output" then .flagNext .output
  else if 3 < arg.length ∧ arg.toList.take 2 = ['-', 'D'] then .define
  else .file

/-- Effect of a simple flag on the loop state. -/
def applySimple (t : SimpleFlag) (s : MainState) : MainState :=
  match t with
  | .help => { s with showHelp := true }
  | .version => { s with showVersion := true }
  | .pause => { s with pauseApp := true }

/-- Effect of a `BoolArg` flag on the loop state. -/
def applyBool (t : BoolFlag) (b : Bool) (s : MainState) : MainState :=
  match t with
  | .warn => { s with config.options.warnings := b }
  | .blanks => { s with config.options.blanks := b }
  | .lineMarks => { s with config.options.lineMarks := b }
  | .dumpAST => { s with config.options.dumpAST := b }
  | .pponly => { s with config.options.preprocessOnly := b }
  | .comments => { s with config.options.keepComments := b }

/-- Effect of a `NextArg` flag on the loop state. -/
def applyNext (t : NextFlag) (v : String) (s : MainState) : MainState :=
  match t with
  | .entry => { s with config.entry := v }
  | .target => { s with config.target := v }
  | .shaderIn => { s with config.shaderIn := v }
  | .shaderOut => { s with config.shaderOut := v }
  | .indent => { s with config.options.indent := v }
  | .prefixFlag => { s with config.options.prefixStr := v }
  | .output => { s with config.output := v }

/-- Effect of a `-D` argument on the loop state. -/
def applyDefine (arg : String) (s : MainState) : MainState :=
  { s with config.predefinedDefs :=
      s.config.predefinedDefs ++ [PredefinedDefArg arg] }

/-- Effect of a positional file argument on the loop state:
`Translate` it (recording the event), reset the per-file fields and
count the translation. -/
def applyFile (arg : String) (s : MainState) : MainState :=
  { s with
      config := (handleFile s.config arg).1,
      translationCount := s.translationCount + 1,
      events := s.events ++ [(handleFile s.config arg).2] }

/-- The argument loop of `main`: process arguments in order; a missing
`NextArg` argument throws, which `main` catches by returning (so the
loop stops with the current state). -/
def processArgs (s : MainState) : List String → MainState
  | [] => s
  | arg :: rest =>
      match classifyArg arg with
      | .flagSimple t => processArgs (applySimple t s) rest
      | .flagBool t => processArgs (applyBool t (BoolArg rest).1 s) (BoolArg rest).2
      | .flagNext t =>
          match rest with
          | [] => s
          | v :: rest2 => processArgs (applyNext t v s) rest2
      | .define => processArgs (applyDefine arg s) rest
      | .file => processArgs (applyFile arg s) rest
termination_by l => l.length
decreasing_by
  all_goals simp only [List.length_cons]
  all_goals try
    (have hb : (BoolArg rest).2.length ≤ rest.length := by
      cases rest with
      | nil => simp [BoolArg]
      | cons a r =>
          simp only [BoolArg]
          split
          · simp
          · split <;> simp)
  all_goals omega

/-- The claim's reading of "the non-flag arguments, in command-line
order": the arguments the loop reaches that match no flag pattern,
skipping the arguments consumed by `BoolArg` and `NextArg` flags and
stopping where a `NextArg` flag finds no further argument. -/
def positionalsOf : List String → List String
  | [] => []
  | arg :: rest =>
      match classifyArg arg with
      | .flagSimple _ => positionalsOf rest
      | .flagBool _ => positionalsOf (BoolArg rest).2
      | .flagNext _ =>
          match rest with
          | [] => []
          | _ :: rest2 => positionalsOf rest2
      | .define => positionalsOf rest
      | .file => arg :: positionalsOf rest
termination_by l => l.length
decreasing_by
  all_goals simp only [List.length_cons]
  all_goals try
    (have hb : (BoolArg rest).2.length ≤ rest.length := by
      cases rest with
      | nil => simp [BoolArg]
      | cons a r =>
          simp only [BoolArg]
          split
          · simp
          · split <;> simp)
  all_goals omega

end XscTool

namespace Xsc

/- ===================== Spec-reading definitions =====================

Definitions that follow the specification's words (rather than the
source), used to compare the source behavior against the claims. -/

/-- The claim's reading of `InitializerExpr::DeriveTypeDenoter` for a
non-empty list: "an array type denoter whose element type is the type
of the first element and whose element count is N, where N counts
nested initializer lists flattened per `NumElements()`" — i.e. the
array dimension records the flattened element count. -/
def specInitializerDeriveTypeDenoter (exprs : List Expr) :
    Except String TypeDenoter :=
  match exprs with
  | [] => .error "can not derive type of initializer list with no elements"
  | e :: _ =>
      match e.deriveTypeDenoter with
      | .error msg => .error msg
      | .ok typeDen =>
          .ok (.array typeDen
            [some (.literal .Int (toString (initializerNumElements exprs)))])

/-- The claim's reading of `PostUnaryExpr::DeriveTypeDenoter`:
"returns Base(bool) when the operator is a logical operator, and
otherwise returns the operand's type denoter". -/
def specPostUnaryDeriveTypeDenoter (e : Expr) (op : UnaryOp) :
    Except String TypeDenoter :=
  match e.deriveTypeDenoter with
  | .error msg => .error msg
  | .ok typeDen => if IsLogicalOp op then .ok (.base .Bool) else .ok typeDen

/-- A concrete struct with a base struct, for evaluating
`StructDecl::Fetch` on an inherited and an own member. -/
def demoStruct : StructDecl :=
  .mk "S"
    (some (.mk "Base" none [⟨[⟨"a", none⟩, ⟨"b", none⟩]⟩]))
    [⟨[⟨"a", none⟩, ⟨"c", none⟩]⟩]

end Xsc

namespace Xsc

/- ===================== Theorems ===================== -/

/-- C1: for every typed AST node, `GetTypeDenoter()` derives the type
denoter at most once (a call on a buffered state performs zero
`DeriveTypeDenoter` calls and returns the buffered instance with the
state unchanged; any call leaves the buffer filled with exactly the
returned instance, so later calls re-derive nothing), and the memo
cache is cleared exactly by `ResetBufferedTypeDenoter()` and by
`LiteralExpr::ConvertDataType(t)` when `t` differs from the literal's
current data type, while `ConvertDataType` with an equal type leaves
the whole literal — cache included — intact. -/
theorem getTypeDenoter_memo_invalidation :
    (∀ (derive typeDen : TypeDenoter) (s : TypedAST),
        s.bufferedTypeDenoter = some typeDen →
        TypedAST.GetTypeDenoter derive s = (typeDen, s)) ∧
    (∀ (derive : TypeDenoter) (s : TypedAST),
        ((TypedAST.GetTypeDenoter derive s).2).bufferedTypeDenoter =
          some (TypedAST.GetTypeDenoter derive s).1 ∧
        TypedAST.deriveCallCount (TypedAST.GetTypeDenoter derive s).2 = 0) ∧
    (∀ s : TypedAST,
        (s.ResetBufferedTypeDenoter).bufferedTypeDenoter = none) ∧
    (∀ (toBoolStr toIntStr toRealStr : String → String)
        (e : LiteralExpr) (t : DataType),
        (e.dataType = t →
          LiteralExpr.ConvertDataType toBoolStr toIntStr toRealStr e t = e) ∧
        (e.dataType ≠ t →
          (LiteralExpr.ConvertDataType toBoolStr toIntStr toRealStr e t).bufferedTypeDenoter
            = none)) := by
  refine ⟨?_, ?_, ?_, ?_⟩
  · intro derive typeDen s h
    simp [TypedAST.GetTypeDenoter, h]
  · intro derive s
    cases h : s.bufferedTypeDenoter <;>
      simp [TypedAST.GetTypeDenoter, TypedAST.deriveCallCount, h]
  · intro s
    rfl
  · intro fb fi fr e t
    constructor
    · intro h
      simp [LiteralExpr.ConvertDataType, h]
    · intro h
      simp [LiteralExpr.ConvertDataType, h]

/-- Witness for C1 at concrete inputs: a buffered node returns its
buffer unchanged; converting a literal to its own type is the
identity; converting to a different type clears the cache. -/
theorem getTypeDenoter_memo_invalidation_witness :
    TypedAST.GetTypeDenoter (.base .Int) ⟨some (.base .Float)⟩ =
      (.base .Float, ⟨some (.base .Float)⟩) ∧
    LiteralExpr.ConvertDataType id id id ⟨.Int, "1", some (.base .Int)⟩ .Int =
      ⟨.Int, "1", some (.base .Int)⟩ ∧
    (LiteralExpr.ConvertDataType id id id
        ⟨.Int, "1", some (.base .Int)⟩ .Float).bufferedTypeDenoter = none := by
  refine ⟨?_, ?_, ?_⟩
  · exact getTypeDenoter_memo_invalidation.1 (.base .Int) (.base .Float)
      ⟨some (.base .Float)⟩ rfl
  · exact (getTypeDenoter_memo_invalidation.2.2.2 id id id
      ⟨.Int, "1", some (.base .Int)⟩ .Int).1 rfl
  · exact (getTypeDenoter_memo_invalidation.2.2.2 id id id
      ⟨.Int, "1", some (.base .Int)⟩ .Float).2 (by decide)

/-- C6: `LiteralExpr::ConvertDataType` is idempotent — converting
twice to the same data type leaves the literal (data type, value
string and memo cache) exactly as converting once, for every behavior
of the `Variant` string conversions. -/
theorem convertDataType_idempotent
    (toBoolStr toIntStr toRealStr : String → String)
    (e : LiteralExpr) (t : DataType) :
    LiteralExpr.ConvertDataType toBoolStr toIntStr toRealStr
        (LiteralExpr.ConvertDataType toBoolStr toIntStr toRealStr e t) t =
      LiteralExpr.ConvertDataType toBoolStr toIntStr toRealStr e t := by
  by_cases h : e.dataType = t
  · simp [LiteralExpr.ConvertDataType, h]
  · have h1 :
        (LiteralExpr.ConvertDataType toBoolStr toIntStr toRealStr e t).dataType = t := by
      simp [LiteralExpr.ConvertDataType, h]
    generalize LiteralExpr.ConvertDataType toBoolStr toIntStr toRealStr e t = x at h1 ⊢
    simp [LiteralExpr.ConvertDataType, h1]

end Xsc

namespace Xsc

theorem fetchFromMembers_eq (members : List VarDeclStmnt) (ident : String) :
    fetchFromMembers members ident =
      (members.flatMap (fun m => m.varDecls)).find? (fun v => v.ident == ident) := by
  induction members with
  | nil => simp [fetchFromMembers]
  | cons m rest ih =>
      have hm : VarDeclStmnt.Fetch m ident =
          m.varDecls.find? (fun v => v.ident == ident) := rfl
      rw [List.flatMap_cons, List.find?_append, ← ih, ← hm]
      cases h : VarDeclStmnt.Fetch m ident <;> simp [fetchFromMembers, h]

theorem structDecl_fetch_eq :
    ∀ (s : StructDecl) (name : String),
      s.Fetch name = s.allVars.find? (fun v => v.ident == name)
  | .mk ident none members, name => by
      simp only [StructDecl.Fetch, StructDecl.allVars, fetchFromMembers_eq]
      simp
  | .mk ident (some base) members, name => by
      have ih := structDecl_fetch_eq base name
      simp only [StructDecl.Fetch, StructDecl.allVars, List.find?_append,
        ← ih, ← fetchFromMembers_eq]
      cases h : base.Fetch name <;> simp [h]

/-- C2: `StructDecl::Fetch(name)` searches the base struct chain
first, then the own member statements in declaration order, returning
the first `VarDecl` whose identifier equals `name`; it returns null
exactly when no member of the base chain or of the struct itself has
that identifier. -/
theorem structDecl_fetch_spec (s : StructDecl) (name : String) :
    s.Fetch name = s.allVars.find? (fun v => v.ident == name) ∧
    (s.Fetch name = none ↔ ∀ v ∈ s.allVars, v.ident ≠ name) := by
  refine ⟨structDecl_fetch_eq s name, ?_⟩
  rw [structDecl_fetch_eq s name, List.find?_eq_none]
  simp

/-- Witness for C2 on a concrete struct with a base: the inherited
member `"b"` is found in the base, the first match wins for the
duplicated `"a"`, and an absent name yields null. -/
theorem structDecl_fetch_spec_witness :
    demoStruct.Fetch "c" = demoStruct.allVars.find? (fun v => v.ident == "c") ∧
    demoStruct.Fetch "c" = some ⟨"c", none⟩ ∧
    demoStruct.Fetch "zzz" = none := by
  refine ⟨(structDecl_fetch_spec demoStruct "c").1, rfl, ?_⟩
  exact (structDecl_fetch_spec demoStruct "zzz").2.mpr (by decide)

theorem numMinArgsLoop_eq_findIdx (params : List VarDeclStmnt) :
    numMinArgsLoop params = params.findIdx paramHasDefault := by
  induction params with
  | nil => simp [numMinArgsLoop]
  | cons p ps ih =>
      rw [List.findIdx_cons]
      cases h : p.varDecls with
      | nil => simp [numMinArgsLoop, paramHasDefault, h, ih]
      | cons front rest =>
          cases hi : front.initializer <;>
            simp [numMinArgsLoop, paramHasDefault, h, hi, ih]

/-- C3: `NumMinArgs()` equals the index of the first parameter whose
first variable declaration carries an initializer (and equals the
parameter count when no parameter is defaulted), `NumMaxArgs()` equals
the number of parameters, and `NumMinArgs() ≤ NumMaxArgs()`. -/
theorem functionDecl_numArgs_spec (f : FunctionDecl) :
    f.NumMinArgs = f.parameters.findIdx paramHasDefault ∧
    f.NumMaxArgs = f.parameters.length ∧
    f.NumMinArgs ≤ f.NumMaxArgs ∧
    ((∀ p ∈ f.parameters, paramHasDefault p = false) →
      f.NumMinArgs = f.parameters.length) := by
  refine ⟨numMinArgsLoop_eq_findIdx f.parameters, rfl, ?_, ?_⟩
  · rw [FunctionDecl.NumMinArgs, FunctionDecl.NumMaxArgs, numMinArgsLoop_eq_findIdx]
    exact List.findIdx_le_length paramHasDefault
  · intro h
    rw [FunctionDecl.NumMinArgs, numMinArgsLoop_eq_findIdx]
    exact List.findIdx_eq_length.mpr h

/-- Witness for C3: a function with two parameters and no defaults has
`NumMinArgs` equal to its parameter count. -/
theorem functionDecl_numArgs_spec_witness :
    (FunctionDecl.mk [⟨[⟨"x", none⟩]⟩, ⟨[⟨"z", none⟩]⟩]).NumMinArgs =
      (FunctionDecl.mk [⟨[⟨"x", none⟩]⟩, ⟨[⟨"z", none⟩]⟩]).parameters.length := by
  exact (functionDecl_numArgs_spec _).2.2.2 (by decide)

end Xsc

namespace Xsc

/-- C4 counterexample: on the two-element initializer `{1, 2}` the
source returns an array type denoter with a single **null** (unsized)
dimension — `std::vector<ExprPtr>{ nullptr }` in
`InitializerExpr::DeriveTypeDenoter` — while `NumElements()` is `2`;
the derived type therefore does not record the element count `N`, so
the result differs from the claim's reading
(`specInitializerDeriveTypeDenoter`). -/
theorem initializer_count_counterexample :
    Expr.deriveTypeDenoter (.initializerList [.literal .Int "1", .literal .Int "2"]) =
      .ok (.array (.base .Int) [none]) ∧
    initializerNumElements [.literal .Int "1", .literal .Int "2"] = 2 ∧
    Expr.deriveTypeDenoter (.initializerList [.literal .Int "1", .literal .Int "2"]) ≠
      specInitializerDeriveTypeDenoter [.literal .Int "1", .literal .Int "2"] := by
  refine ⟨rfl, rfl, ?_⟩
  intro h
  simp [Expr.deriveTypeDenoter, specInitializerDeriveTypeDenoter,
    initializerNumElements, Expr.numElementsContribution] at h

/-- C4 amended: `InitializerExpr::DeriveTypeDenoter()` fails with its
own diagnostic when the expression list is empty; for a non-empty list
it derives the first element's type (propagating a failure from that
element) and returns an array type denoter over it with a single null
(unsized) dimension — the element count is not recorded in the type
(`NumElements()` computes the flattened count separately). -/
theorem initializer_derive_amended :
    (Expr.deriveTypeDenoter (.initializerList []) =
      .error "can not derive type of initializer list with no elements") ∧
    (∀ (e : Expr) (es : List Expr) (typeDen : TypeDenoter),
        e.deriveTypeDenoter = .ok typeDen →
        Expr.deriveTypeDenoter (.initializerList (e :: es)) =
          .ok (.array typeDen [none])) ∧
    (∀ (e : Expr) (es : List Expr) (msg : String),
        e.deriveTypeDenoter = .error msg →
        Expr.deriveTypeDenoter (.initializerList (e :: es)) = .error msg) := by
  refine ⟨rfl, ?_, ?_⟩ <;> (intro e es x h; simp [Expr.deriveTypeDenoter, h])

/-- Witness for C4 (amended): a one-element initializer derives an
unsized array of the element type; a nested empty initializer
propagates the empty-list diagnostic. -/
theorem initializer_derive_amended_witness :
    Expr.deriveTypeDenoter (.initializerList [.literal .Float "1"]) =
      .ok (.array (.base .Float) [none]) ∧
    Expr.deriveTypeDenoter (.initializerList [.initializerList []]) =
      .error "can not derive type of initializer list with no elements" := by
  exact ⟨initializer_derive_amended.2.1 (.literal .Float "1") [] (.base .Float) rfl,
    initializer_derive_amended.2.2 (.initializerList []) [] _ rfl⟩

/-- C5 counterexample: `PostUnaryExpr::DeriveTypeDenoter()` ignores
its operator and always returns the operand type: on a post-unary node
carrying the logical operator `!` over an `int` operand the source
yields `Base(int)`, not `Base(bool)` as the claim's reading
(`specPostUnaryDeriveTypeDenoter`) requires. -/
theorem postUnary_logical_counterexample :
    IsLogicalOp .LogicalNot = true ∧
    Expr.deriveTypeDenoter (.postUnary (.literal .Int "1") .LogicalNot) =
      .ok (.base .Int) ∧
    specPostUnaryDeriveTypeDenoter (.literal .Int "1") .LogicalNot =
      .ok (.base .Bool) ∧
    Expr.deriveTypeDenoter (.postUnary (.literal .Int "1") .LogicalNot) ≠
      specPostUnaryDeriveTypeDenoter (.literal .Int "1") .LogicalNot := by
  refine ⟨rfl, rfl, rfl, ?_⟩
  intro h
  simp [Expr.deriveTypeDenoter, specPostUnaryDeriveTypeDenoter, IsLogicalOp] at h

/-- C5 amended: `UnaryExpr::DeriveTypeDenoter()` returns `Base(bool)`
when the operator is logical and otherwise the operand's type denoter
(propagating a failing operand in both cases); `PostUnaryExpr`'s
derivation returns the operand's type denoter unconditionally,
regardless of the operator. -/
theorem unary_postUnary_derive_amended :
    (∀ (op : UnaryOp) (e : Expr) (typeDen : TypeDenoter),
        e.deriveTypeDenoter = .ok typeDen →
        Expr.deriveTypeDenoter (.unary op e) =
          (if IsLogicalOp op then .ok (.base .Bool) else .ok typeDen)) ∧
    (∀ (op : UnaryOp) (e : Expr) (msg : String),
        e.deriveTypeDenoter = .error msg →
        Expr.deriveTypeDenoter (.unary op e) = .error msg) ∧
    (∀ (e : Expr) (op : UnaryOp),
        Expr.deriveTypeDenoter (.postUnary e op) = e.deriveTypeDenoter) := by
  refine ⟨?_, ?_, ?_⟩
  · intro op e x h
    simp [Expr.deriveTypeDenoter, h]
  · intro op e x h
    simp [Expr.deriveTypeDenoter, h]
  · intro e op
    simp [Expr.deriveTypeDenoter]

/-- Witness for C5 (amended): `!` on an `int` literal gives
`Base(bool)` through the logical branch; a post-unary `++` returns the
operand's type. -/
theorem unary_postUnary_derive_amended_witness :
    Expr.deriveTypeDenoter (.unary .LogicalNot (.literal .Int "3")) =
      (if IsLogicalOp .LogicalNot then .ok (.base .Bool) else .ok (.base .Int)) ∧
    Expr.deriveTypeDenoter (.postUnary (.literal .Float "1") .Inc) =
      Expr.deriveTypeDenoter (.literal .Float "1") := by
  exact ⟨unary_postUnary_derive_amended.1 .LogicalNot (.literal .Int "3") (.base .Int) rfl,
    unary_postUnary_derive_amended.2.2 (.literal .Float "1") .Inc⟩

/-- C7: every `OutputShaderVersion` value decomposes as
(family tag × 2^16) + numeric version, with tag `0x0000` for the GLSL
variants, `0x0001` for ESSL, `0x0002` for VKSL, and the auto-detect
enumerators (`GLSL`, `ESSL`, `VKSL`) are exactly those with `0xFFFF`
in their lower 16 bits. -/
theorem outputShaderVersion_encoding (v : OutputShaderVersion) :
    v.value = v.familyTag * 65536 + v.value % 65536 ∧
    v.value % 65536 < 65536 ∧
    (v.isAutoDetect = true ↔ v.value % 65536 = 0xffff) := by
  cases v <;> exact (by decide)

/-- C10: `VarIdent::PopFront()` leaves every field (`ident`,
`arrayIndices`, `next`, `symbolRef`) unchanged when there is no next
segment, and otherwise copies the next segment's fields into the
node. -/
theorem popFront_frame (v : VarIdent) :
    (v.next = none → v.PopFront = v) ∧
    (∀ n : VarIdent, v.next = some n →
        v.PopFront.ident = n.ident ∧
        v.PopFront.arrayIndices = n.arrayIndices ∧
        v.PopFront.next = n.next ∧
        v.PopFront.symbolRef = n.symbolRef) := by
  match v with
  | .mk i a nx s =>
      constructor
      · intro h
        simp [VarIdent.next] at h
        subst h
        rfl
      · intro n h
        simp [VarIdent.next] at h
        subst h
        exact ⟨rfl, rfl, rfl, rfl⟩

/-- Witness for C10: a single-segment identifier is untouched; a
two-segment identifier takes over the second segment's fields. -/
theorem popFront_frame_witness :
    (VarIdent.mk "x" [] none (some 3)).PopFront = VarIdent.mk "x" [] none (some 3) ∧
    (VarIdent.mk "a" [] (some (VarIdent.mk "b" [.null] none (some 7))) none).PopFront.ident = "b" ∧
    (VarIdent.mk "a" [] (some (VarIdent.mk "b" [.null] none (some 7))) none).PopFront.symbolRef = some 7 := by
  refine ⟨(popFront_frame (VarIdent.mk "x" [] none (some 3))).1 rfl, ?_, ?_⟩
  · exact ((popFront_frame
      (VarIdent.mk "a" [] (some (VarIdent.mk "b" [.null] none (some 7))) none)).2
      (VarIdent.mk "b" [.null] none (some 7)) rfl).1
  · exact ((popFront_frame
      (VarIdent.mk "a" [] (some (VarIdent.mk "b" [.null] none (some 7))) none)).2
      (VarIdent.mk "b" [.null] none (some 7)) rfl).2.2.2

end Xsc

namespace XscTool

theorem boolArg_rest_length (l : List String) :
    (BoolArg l).2.length ≤ l.length := by
  match l with
  | [] => simp [BoolArg]
  | arg :: rest =>
      simp only [BoolArg]
      split
      · simp
      · split <;> simp

theorem applySimple_events (t : SimpleFlag) (s : MainState) :
    (applySimple t s).events = s.events := by
  cases t <;> rfl

theorem applyBool_events (t : BoolFlag) (b : Bool) (s : MainState) :
    (applyBool t b s).events = s.events := by
  cases t <;> rfl

theorem applyNext_events (t : NextFlag) (v : String) (s : MainState) :
    (applyNext t v s).events = s.events := by
  cases t <;> rfl

theorem applyDefine_events (arg : String) (s : MainState) :
    (applyDefine arg s).events = s.events := rfl

theorem applyFile_events (arg : String) (s : MainState) :
    (applyFile arg s).events = s.events ++ [(handleFile s.config arg).2] := rfl

theorem handleFile_filename (c : Config) (f : String) :
    ((handleFile c f).2).filename = f := rfl

theorem processArgs_cons_simple (s : MainState) (arg : String)
    (rest : List String) (t : SimpleFlag) (h : classifyArg arg = .flagSimple t) :
    processArgs s (arg :: rest) = processArgs (applySimple t s) rest := by
  cases rest <;> simp only [processArgs, h]

theorem processArgs_cons_bool (s : MainState) (arg : String)
    (rest : List String) (t : BoolFlag) (h : classifyArg arg = .flagBool t) :
    processArgs s (arg :: rest) =
      processArgs (applyBool t (BoolArg rest).1 s) (BoolArg rest).2 := by
  cases rest <;> simp only [processArgs, h]

theorem processArgs_cons_next_nil (s : MainState) (arg : String)
    (t : NextFlag) (h : classifyArg arg = .flagNext t) :
    processArgs s [arg] = s := by
  simp only [processArgs, h]

theorem processArgs_cons_next_cons (s : MainState) (arg v : String)
    (rest2 : List String) (t : NextFlag) (h : classifyArg arg = .flagNext t) :
    processArgs s (arg :: v :: rest2) = processArgs (applyNext t v s) rest2 := by
  simp only [processArgs, h]

theorem processArgs_cons_define (s : MainState) (arg : String)
    (rest : List String) (h : classifyArg arg = .define) :
    processArgs s (arg :: rest) = processArgs (applyDefine arg s) rest := by
  cases rest <;> simp only [processArgs, h]

theorem processArgs_cons_file (s : MainState) (arg : String)
    (rest : List String) (h : classifyArg arg = .file) :
    processArgs s (arg :: rest) = processArgs (applyFile arg s) rest := by
  cases rest <;> simp only [processArgs, h]

theorem positionalsOf_cons_simple (arg : String) (rest : List String)
    (t : SimpleFlag) (h : classifyArg arg = .flagSimple t) :
    positionalsOf (arg :: rest) = positionalsOf rest := by
  cases rest <;> simp only [positionalsOf, h]

theorem positionalsOf_cons_bool (arg : String) (rest : List String)
    (t : BoolFlag) (h : classifyArg arg = .flagBool t) :
    positionalsOf (arg :: rest) = positionalsOf (BoolArg rest).2 := by
  cases rest <;> simp only [positionalsOf, h]

theorem positionalsOf_cons_next_nil (arg : String) (t : NextFlag)
    (h : classifyArg arg = .flagNext t) :
    positionalsOf [arg] = [] := by
  simp only [positionalsOf, h]

theorem positionalsOf_cons_next_cons (arg v : String) (rest2 : List String)
    (t : NextFlag) (h : classifyArg arg = .flagNext t) :
    positionalsOf (arg :: v :: rest2) = positionalsOf rest2 := by
  simp only [positionalsOf, h]

theorem positionalsOf_cons_define (arg : String) (rest : List String)
    (h : classifyArg arg = .define) :
    positionalsOf (arg :: rest) = positionalsOf rest := by
  cases rest <;> simp only [positionalsOf, h]

theorem positionalsOf_cons_file (arg : String) (rest : List String)
    (h : classifyArg arg = .file) :
    positionalsOf (arg :: rest) = arg :: positionalsOf rest := by
  cases rest <;> simp only [positionalsOf, h]

theorem processArgs_events_len :
    ∀ (n : Nat) (args : List String), args.length ≤ n → ∀ s : MainState,
      ((processArgs s args).events).map TranslateEvent.filename =
        (s.events).map TranslateEvent.filename ++ positionalsOf args := by
  intro n
  induction n with
  | zero =>
      intro args h s
      have hnil : args = [] := List.length_eq_zero.mp (Nat.le_zero.mp h)
      subst hnil
      simp [processArgs, positionalsOf]
  | succ n ih =>
      intro args h s
      match args with
      | [] => simp [processArgs, positionalsOf]
      | arg :: rest =>
          have hr : rest.length ≤ n := by
            simp only [List.length_cons] at h
            omega
          cases hc : classifyArg arg with
          | flagSimple t =>
              rw [processArgs_cons_simple s arg rest t hc,
                positionalsOf_cons_simple arg rest t hc,
                ih rest hr (applySimple t s), applySimple_events]
          | flagBool t =>
              have hb : (BoolArg rest).2.length ≤ n :=
                le_trans (boolArg_rest_length rest) hr
              rw [processArgs_cons_bool s arg rest t hc,
                positionalsOf_cons_bool arg rest t hc,
                ih (BoolArg rest).2 hb _, applyBool_events]
          | flagNext t =>
              cases rest with
              | nil =>
                  rw [processArgs_cons_next_nil s arg t hc,
                    positionalsOf_cons_next_nil arg t hc]
                  simp
              | cons v rest2 =>
                  have h2 : rest2.length ≤ n := by
                    simp only [List.length_cons] at hr
                    omega
                  rw [processArgs_cons_next_cons s arg v rest2 t hc,
                    positionalsOf_cons_next_cons arg v rest2 t hc,
                    ih rest2 h2 (applyNext t v s), applyNext_events]
          | define =>
              rw [processArgs_cons_define s arg rest hc,
                positionalsOf_cons_define arg rest hc,
                ih rest hr (applyDefine arg s), applyDefine_events]
          | file =>
              rw [processArgs_cons_file s arg rest hc,
                positionalsOf_cons_file arg rest hc,
                ih rest hr (applyFile arg s), applyFile_events]
              simp [handleFile_filename]

/-- C8: in the CLI main loop, every non-flag argument is processed as
an input file in command-line order (the recorded `Translate` events
are exactly the positional arguments, for every starting
configuration), and after each such file the per-file configuration
fields `entry`, `target` and `output` are reset to empty, so they do
not carry over to the next positional file. -/
theorem cli_positional_spec :
    (∀ (s : MainState) (args : List String),
        ((processArgs s args).events).map TranslateEvent.filename =
          (s.events).map TranslateEvent.filename ++ positionalsOf args) ∧
    (∀ (c : Config) (file : String),
        (handleFile c file).1.entry = "" ∧
        (handleFile c file).1.target = "" ∧
        (handleFile c file).1.output = "") := by
  constructor
  · intro s args
    exact processArgs_events_len args.length args (le_refl _) s
  · intro c f
    exact ⟨rfl, rfl, rfl⟩

/-- C9: a `BoolArg` flag evaluates to `true` when it is the last
argument; a following argument that is neither `"on"` nor `"off"` is
not consumed and the flag is `true`; a following `"on"`/`"off"` is
consumed and yields `true`/`false`; hence the flag is `false` exactly
when the next argument is `"off"`. -/
theorem boolArg_spec :
    (BoolArg []).1 = true ∧
    (∀ (a : String) (rest : List String), a ≠ "on" → a ≠ "off" →
        BoolArg (a :: rest) = (true, a :: rest)) ∧
    (∀ rest : List String, BoolArg ("on" :: rest) = (true, rest)) ∧
    (∀ rest : List String, BoolArg ("off" :: rest) = (false, rest)) ∧
    (∀ l : List String, ((BoolArg l).1 = false ↔ l.head? = some "off")) := by
  refine ⟨rfl, ?_, fun _ => rfl, fun _ => rfl, ?_⟩
  · intro a rest h1 h2
    simp [BoolArg, h1, h2]
  · intro l
    match l with
    | [] => simp [BoolArg]
    | a :: rest =>
        by_cases h1 : a = "on"
        · subst h1; simp [BoolArg]
        · by_cases h2 : a = "off"
          · subst h2; simp [BoolArg]
          · simp [BoolArg, h1, h2]

/-- Witness for C9: a following argument that is neither `"on"` nor
`"off"` is left in place and the flag is `true`. -/
theorem boolArg_spec_witness :
    BoolArg ["maybe"] = (true, ["maybe"]) := by
  exact boolArg_spec.2.1 "maybe" [] (by decide) (by decide)

end XscTool
